import Mathlib

/-!
Verification development for the Telechat2 model implementation
(`modeling_telechat2.py`) and its tokenizer (`tokenization_telechat.py`).

Tensors over the feature axis are embedded as `List K` for an abstract
linearly ordered field `K` (instantiable by `ℚ` or `ℝ`); batched /
sequence-indexed tensors become nested lists.  Framework numeric kernels
that are not defined in this repository (`cos`, `sin`, `log`, fractional
powers, `rsqrt`, `silu`, dropout noise, cross-entropy) are passed in as
explicit function parameters, so every definition below stays executable
and can be evaluated on concrete inputs.
-/

set_option maxHeartbeats 1000000

namespace Telechat

/-! ## Key/value cache update inside `TelechatAttention.forward`
(`modeling_telechat2.py` lines 413-431 and 477).

A cached key (or value) tensor has shape `[batch, kv_heads, seq, head_dim]`
and is grown along dimension 2 (the sequence dimension); we embed it as a
`List α` holding one abstract per-position slice (the `[batch, kv_heads,
head_dim]` block) per cached sequence position.  The freshly projected
`key_layer` / `value_layer` have shape `[S, batch, kv_heads, head_dim]`
and are likewise embedded as a `List α` of per-position slices; the
`permute(1, 2, 0, 3)` calls only reorder axes and do not change which
per-position slices exist, so they are the identity in this embedding. -/

/-- The `present` cache returned by `TelechatAttention.forward`:
if `use_cache` is off the result is `none`; if it is on and there is a
previous `layer_past`, the code appends `key_layer[-1:, ...]` (the slice
holding only the last new position) to the stored keys, and similarly for
values; otherwise the whole new key/value layers become the cache. -/
def attentionPresent {α : Type} (layer_past : Option (List α × List α))
    (key_layer value_layer : List α) (use_cache : Bool) :
    Option (List α × List α) :=
  if use_cache then
    match layer_past with
    | some (past_key, past_value) =>
        some (past_key ++ key_layer.drop (key_layer.length - 1),
              past_value ++ value_layer.drop (value_layer.length - 1))
    | none => some (key_layer, value_layer)
  else none

/-! ## Attention masks
(`modeling_telechat2.py`: `_make_causal_mask` lines 84-113, `_expand_mask`
lines 116-130, `TelechatModel._prepare_attn_mask` lines 617-630).

Masks are embedded as functions from (query position, key position) to
`Bool`; `true` means the position pair is blocked (masked out).  The
batch and singleton head axes added by `expand` are dropped. -/

/-- `_make_causal_mask input_ids_shape device past_key_values_length`:
columns `j < past` are set to `False`; column `past + jj` of row `i` is
set to `i < jj`, i.e. column `j ≥ past` of row `i` holds `i < j - past`. -/
def makeCausalMask (target_length past_key_values_length : ℕ) :
    ℕ → ℕ → Bool :=
  fun i j =>
    if j < past_key_values_length then false
    else decide (i < j - past_key_values_length)

/-- `_expand_mask mask tgt_length`: the 2-D padding mask (one boolean per
key position, `true` = may attend) is negated and broadcast over query
positions. -/
def expandMask (mask : ℕ → Bool) : ℕ → ℕ → Bool :=
  fun _i j => ! mask j

/-- `TelechatModel._prepare_attn_mask`: when the input length exceeds 1
the causal mask is built and OR-combined with the expanded padding mask;
otherwise only the expanded padding mask is used. -/
def prepareAttnMask (attention_mask : ℕ → Bool)
    (src_length past_key_values_length : ℕ) : ℕ → ℕ → Bool :=
  let expanded_attn_mask := expandMask attention_mask
  if 1 < src_length then
    fun i j =>
      expanded_attn_mask i j || makeCausalMask src_length past_key_values_length i j
  else expanded_attn_mask

/-! ## Tokenizer special-token wrapping
(`tokenization_telechat.py`: `build_inputs_with_special_tokens`
lines 227-252, constructor defaults `add_bos_token=True`,
`add_eos_token=False` at lines 52-101). -/

/-- `Telechat2Tokenizer.build_inputs_with_special_tokens`:
wraps `token_ids_0` (and the optional `token_ids_1`) with the BOS id when
`add_bos_token` is set and the EOS id when `add_eos_token` is set. -/
def build_inputs_with_special_tokens (add_bos_token add_eos_token : Bool)
    (bos_token_id eos_token_id : ℤ) (token_ids_0 : List ℤ)
    (token_ids_1 : Option (List ℤ)) : List ℤ :=
  let bos_ids := if add_bos_token then [bos_token_id] else []
  let eos_ids := if add_eos_token then [eos_token_id] else []
  let output := bos_ids ++ token_ids_0 ++ eos_ids
  match token_ids_1 with
  | none => output
  | some ids1 => output ++ (bos_ids ++ ids1 ++ eos_ids)

/-! ## Elementwise tensor helpers -/

/-- Dot product of two feature vectors (the core of `nn.Linear`). -/
def dot {K : Type} [Field K] (xs ys : List K) : K :=
  (List.zipWith (fun a b => a * b) xs ys).sum

/-- `nn.Linear(..., bias=False)`: each output feature is the dot product
of a weight row with the input vector. -/
def linear {K : Type} [Field K] (weight : List (List K)) (x : List K) : List K :=
  weight.map (fun row => dot row x)

/-- `nn.Linear(..., bias=True)`: `linear` followed by adding the bias. -/
def linearWithBias {K : Type} [Field K] (weight : List (List K)) (bias : List K)
    (x : List K) : List K :=
  List.zipWith (fun v bv => v + bv) (linear weight x) bias

/-! ## RMS normalization
(`modeling_telechat2.py`: `MixedFusedRMSNorm.forward` lines 230-235).
The float32 round-trip of the source is the identity in this exact-field
embedding; `torch.rsqrt` is the framework kernel parameter `krsqrt`. -/

/-- `MixedFusedRMSNorm.forward`: `variance` is the mean of the squared
features, the input is scaled by `rsqrt (variance + eps)`, and the result
is multiplied elementwise by the learned `weight`. -/
def MixedFusedRMSNorm.forward {K : Type} [Field K] (krsqrt : K → K)
    (weight : List K) (variance_epsilon : K) (hidden_states : List K) : List K :=
  let variance := ((hidden_states.map (fun v => v * v)).sum) / (hidden_states.length : K)
  let normed := hidden_states.map (fun v => v * krsqrt (variance + variance_epsilon))
  List.zipWith (fun w h => w * h) weight normed

/-! ## Rotary position embedding application
(`modeling_telechat2.py`: `rotate_half` lines 44-57,
`apply_rotary_pos_emb_torch` lines 60-81).

`q` and `k` have shape `[seq_len, batch*heads, head_dim]`, embedded as
`List (List (List K))`; the `cos`/`sin` tables have shape
`[rows, 1, head_dim]`, embedded as `List (List K)` with the broadcast
singleton axis dropped. -/

/-- `rotate_half x`: splits the feature axis into halves `(x1, x2)` at
index `length / 2` and returns the concatenation `(-x2, x1)`. -/
def rotate_half {K : Type} [Field K] (x : List K) : List K :=
  let x1 := x.take (x.length / 2)
  let x2 := x.drop (x.length / 2)
  x2.map (fun v => -v) ++ x1

/-- `apply_rotary_pos_emb_torch q k cos sin offset`: slices rows
`offset ..< offset + q.length` out of both tables and returns
`(q * cos + rotate_half q * sin, k * cos + rotate_half k * sin)`,
all products and sums elementwise with the table row broadcast over the
batch-times-heads axis. -/
def apply_rotary_pos_emb_torch {K : Type} [Field K]
    (q k : List (List (List K))) (cos sin : List (List K)) (offset : ℕ) :
    List (List (List K)) × List (List (List K)) :=
  let cosS := (cos.drop offset).take q.length
  let sinS := (sin.drop offset).take q.length
  let app := fun (x : List (List (List K))) =>
    List.zipWith
      (fun (cs : List K × List K) (xt : List (List K)) =>
        xt.map (fun vec =>
          List.zipWith (fun a b => a + b)
            (List.zipWith (fun a b => a * b) vec cs.1)
            (List.zipWith (fun a b => a * b) (rotate_half vec) cs.2)))
      (cosS.zip sinS) x
  (app q, app k)

/-! ## Rotary embedding table generation
(`modeling_telechat2.py`: `RotaryEmbedding` lines 151-215).

`math.log(x, 2)` and `math.log x` are the kernel parameters `klog2` and
`klogE`; fractional powers `a ** b` (with non-integer `b`) are `kpow`;
`cos`/`sin` are `kcos`/`ksin`.  `math.ceil` is `Int.ceil` of the exact
field value.  The config fields read by this module are `base_seqlen`
and `training_seqlen` (the accompanying `configuration_telechat2.py` is
not part of this repository snapshot; only these two integer fields are
used here). -/

/-- The two `Telechat2Config` fields consumed by `RotaryEmbedding`. -/
structure Telechat2Config where
  base_seqlen : ℕ
  training_seqlen : ℕ
deriving DecidableEq

/-- `RotaryEmbedding.get_mscale`: 1 for scale at most 1, otherwise
`0.1 * log scale + 1`. -/
def RotaryEmbedding.get_mscale {K : Type} [LinearOrderedField K]
    (klogE : K → K) (scale : K) : K :=
  if scale ≤ 1 then 1 else (1 / 10) * klogE scale + 1

/-- `RotaryEmbedding.get_ntk_alpha`: `context_value` is
`log2 (true_seq_len / base_seqlen) + 1` and the result is
`max (2 ^ ⌈context_value⌉ - 1) 1`. -/
def RotaryEmbedding.get_ntk_alpha {K : Type} [LinearOrderedField K] [FloorRing K]
    (klog2 : K → K) (config : Telechat2Config) (true_seq_len : ℕ) : K :=
  let context_value := klog2 ((true_seq_len : K) / (config.base_seqlen : K)) + 1
  let ntk_alpha := (2 : K) ^ (⌈context_value⌉ : ℤ) - 1
  max ntk_alpha 1

/-- `RotaryEmbedding.forward` with requested length `seq_len_arg`:
the length is first clamped below by `training_seqlen`; the NTK-adjusted
base is `base * ntk_alpha ^ (dim / (dim - 2))`; the inverse frequencies
are `1 / base' ^ (2 i / dim)` for `i < ⌈dim / 2⌉`; row `t` of `emb` is
`t * inv_freq` concatenated with itself; the returned tables are
`mscale * cos emb` and `mscale * sin emb`, truncated to the clamped
length (a no-op, since `emb` has exactly that many rows). -/
def RotaryEmbedding.forward {K : Type} [LinearOrderedField K] [FloorRing K]
    (klog2 klogE : K → K) (kpow : K → K → K) (kcos ksin : K → K)
    (dim : ℕ) (base : K) (config : Telechat2Config) (seq_len_arg : ℕ) :
    List (List K) × List (List K) :=
  let seq_len := max seq_len_arg config.training_seqlen
  let ntk_alpha := RotaryEmbedding.get_ntk_alpha klog2 config seq_len
  let mscale := RotaryEmbedding.get_mscale klogE ((seq_len : K) / (config.training_seqlen : K))
  let newBase := base * kpow ntk_alpha ((dim : K) / ((dim : K) - 2))
  let inv_freq := (List.range ((dim + 1) / 2)).map
    (fun i => 1 / kpow newBase (((2 * i : ℕ) : K) / (dim : K)))
  let emb := (List.range seq_len).map
    (fun (t : ℕ) =>
      (inv_freq.map (fun f => (t : K) * f)) ++ (inv_freq.map (fun f => (t : K) * f)))
  let cos_cached := emb.map (fun row => row.map (fun v => mscale * kcos v))
  let sin_cached := emb.map (fun row => row.map (fun v => mscale * ksin v))
  (cos_cached.take seq_len, sin_cached.take seq_len)

/-! ## Dropout-add and the gated MLP
(`modeling_telechat2.py`: `dropout_add` lines 133-148,
`TelechatMLP.forward` lines 499-502).

`F.dropout(x, p, training)` returns `x` unchanged when `training` is
false; the stochastic rescaling applied when `training` is true is the
kernel parameter `kdrop`.  `F.silu` is the kernel parameter `ksilu`. -/

/-- `dropout_add x residual prob training`: dropout applied to `x`
followed by addition of `residual`. -/
def dropout_add {K : Type} [Field K] (kdrop : List K → List K)
    (x residual : List K) (prob : K) (training : Bool) : List K :=
  let out := if training then kdrop x else x
  List.zipWith (fun r o => r + o) residual out

/-- `TelechatMLP.forward`: the gated feed-forward
`down_proj (silu (gate_proj x) * up_proj x)` followed by `dropout_add`
with the residual.  `gate_proj` and `up_proj` carry no bias; `down_proj`
has a bias. -/
def TelechatMLP.forward {K : Type} [Field K] (ksilu : K → K)
    (kdrop : List K → List K) (gate_proj_w up_proj_w down_proj_w : List (List K))
    (down_proj_b : List K) (hidden_dropout : K) (training : Bool)
    (hidden_states residual : List K) : List K :=
  let intermediate_output := linearWithBias down_proj_w down_proj_b
    (List.zipWith (fun a b => a * b)
      ((linear gate_proj_w hidden_states).map ksilu)
      (linear up_proj_w hidden_states))
  dropout_add kdrop intermediate_output residual hidden_dropout training

/-! ## Causal-LM head
(`modeling_telechat2.py`: `Telechat2ForCausalLM.forward` lines 839-856).

`hidden_states` is the transformer output of shape
`[batch, seq, hidden]`; `labels` has shape `[batch, seq]`.
`nn.CrossEntropyLoss` applied to the flattened shifted logits and labels
is the kernel parameter `kce`. -/

/-- `Telechat2ForCausalLM.forward`, from the final hidden states on:
`lm_logits` applies the bias-free `lm_head` projection at every position;
when `labels` is given, the loss is the cross-entropy of
`lm_logits[..., :-1, :]` against `labels[..., 1:]`, both flattened over
batch and sequence; otherwise the loss is `none`. -/
def Telechat2ForCausalLM.forward {K : Type} [Field K]
    (kce : List (List K) → List ℤ → K) (lm_head_w : List (List K))
    (hidden_states : List (List (List K))) (labels : Option (List (List ℤ))) :
    List (List (List K)) × Option K :=
  let lm_logits := hidden_states.map (fun seq => seq.map (linear lm_head_w))
  let loss := labels.map (fun ls =>
    let shift_logits := (lm_logits.map (fun s => s.dropLast)).flatten
    let shift_labels := (ls.map (fun s => s.drop 1)).flatten
    kce shift_logits shift_labels)
  (lm_logits, loss)

/-! ## Tokenizer vocabulary save/load
(`tokenization_telechat.py`: constructor lines 52-101, `vocab_size`
lines 113-118, `get_vocab` lines 120-129, `save_vocabulary`
lines 198-225).

The SentencePiece model is embedded as its list of pieces; a file's
content is the serialized model itself (`serialized_model_proto` and
`Load` are inverse by construction of the proto format).  The filesystem
is a directory list plus a path-to-content association list; paths are
taken already absolute, so `os.path.abspath` is the identity. -/

/-- A SentencePiece model: piece `i` of the list has id `i`. -/
structure SPModel where
  pieces : List String
deriving DecidableEq

/-- `sp_model.get_piece_size`, backing `Telechat2Tokenizer.vocab_size`. -/
def SPModel.vocab_size (sp : SPModel) : ℕ := sp.pieces.length

/-- `Telechat2Tokenizer.get_vocab` restricted to the SentencePiece
pieces (the `added_tokens_encoder` overlay lives in the superclass and
is not part of this file): the association list
`[(IdToPiece i, i) | i < vocab_size]`. -/
def SPModel.get_vocab (sp : SPModel) : List (String × ℕ) :=
  (List.range sp.vocab_size).map (fun i => (sp.pieces.getD i "", i))

/-- A filesystem: existing directories and files with their contents. -/
structure FileSys where
  dirs : List String
  files : List (String × SPModel)
deriving DecidableEq

/-- `os.path.isdir`. -/
def FileSys.isdir (fs : FileSys) (p : String) : Bool := fs.dirs.contains p

/-- `os.path.isfile`. -/
def FileSys.isfile (fs : FileSys) (p : String) : Bool :=
  fs.files.any (fun e => e.1 = p)

/-- Reading a file's content, if present. -/
def FileSys.read (fs : FileSys) (p : String) : Option SPModel :=
  (fs.files.find? (fun e => e.1 = p)).map (fun e => e.2)

/-- Writing a file (create or overwrite). -/
def FileSys.write (fs : FileSys) (p : String) (c : SPModel) : FileSys :=
  ⟨fs.dirs, (p, c) :: fs.files.filter (fun e => ¬ e.1 = p)⟩

/-- `shutil.copyfile src dst` (only reached when `src` exists). -/
def FileSys.copyfile (fs : FileSys) (src dst : String) : FileSys :=
  match fs.read src with
  | some c => fs.write dst c
  | none => fs

/-- The tokenizer state relevant to the vocabulary: the loaded
SentencePiece model and the path it was loaded from. -/
structure Telechat2Tokenizer where
  sp_model : SPModel
  vocab_file : String
deriving DecidableEq

/-- The `Telechat2Tokenizer` constructor's vocabulary handling:
`sp_model.Load(vocab_file)` fails when the file does not exist,
otherwise the tokenizer holds the loaded model and remembers the path. -/
def Telechat2Tokenizer.fromFile (fs : FileSys) (vocab_file : String) :
    Option Telechat2Tokenizer :=
  (fs.read vocab_file).map (fun m => ⟨m, vocab_file⟩)

/-- `Telechat2Tokenizer.save_vocabulary tok fs save_directory fnPre`:
on a non-directory it logs an error and returns `None` without touching
the filesystem; otherwise the output path is
`save_directory/[fnPre-]tokenizer.model`, the vocab file is copied there
when it exists at a different path, serialized there when it does not
exist, and left alone when it is already the output path; the returned
value is the one-element tuple of the output path. -/
def Telechat2Tokenizer.save_vocabulary (tok : Telechat2Tokenizer)
    (fs : FileSys) (save_directory : String) (fnPre : Option String) :
    Option String × FileSys :=
  if fs.isdir save_directory = false then (none, fs)
  else
    let out_vocab_file := save_directory ++ "/" ++
      ((match fnPre with | some p => p ++ "-" | none => "") ++ "tokenizer.model")
    if ¬ tok.vocab_file = out_vocab_file ∧ fs.isfile tok.vocab_file then
      (some out_vocab_file, fs.copyfile tok.vocab_file out_vocab_file)
    else if fs.isfile tok.vocab_file = false then
      (some out_vocab_file, fs.write out_vocab_file tok.sp_model)
    else
      (some out_vocab_file, fs)

/-! ## Spec-side formulas (transcribed from the specification / claims,
for refinement statements only) -/

/-- Formula from the spec: `weight * (x / sqrt (mean (x^2) + eps))`,
with no mean-centering. -/
def rmsnormSpecFormula {K : Type} [Field K] (ksqrt : K → K)
    (weight : List K) (eps : K) (x : List K) : List K :=
  List.zipWith
    (fun w v => w * (v / ksqrt ((x.map (fun u => u * u)).sum / (x.length : K) + eps)))
    weight x

/-- Formula from the spec: `residual + down_proj (silu (gate_proj x) * up_proj x)`. -/
def mlpGatedSpec {K : Type} [Field K] (ksilu : K → K)
    (gate_proj_w up_proj_w down_proj_w : List (List K)) (down_proj_b : List K)
    (hidden_states residual : List K) : List K :=
  List.zipWith (fun r o => r + o) residual
    (linearWithBias down_proj_w down_proj_b
      (List.zipWith (fun a b => a * b)
        ((linear gate_proj_w hidden_states).map ksilu)
        (linear up_proj_w hidden_states)))

end Telechat

/-! # Claim theorems -/

/-- C1 (counterexample): with a one-entry cache and two new input tokens,
`TelechatAttention.forward` returns a present cache of length 2, not the
claimed `1 + 2 = 3`: the stored keys/values are extended by the last new
token only, not by all new tokens. -/
theorem C1_cache_counterexample :
    Telechat.attentionPresent (some ([0], [10])) [1, 2] [11, 12] true =
      some (([0, 2] : List ℕ), ([10, 12] : List ℕ)) ∧
    ¬ Telechat.attentionPresent (some ([0], [10])) [1, 2] [11, 12] true =
      some (([0] ++ [1, 2] : List ℕ), ([10] ++ [11, 12] : List ℕ)) := by
  decide

/-- C1 (amended): for every call to `TelechatAttention.forward` with
`use_cache = True` and a non-empty `layer_past` holding `L` cached
key/value positions and `S ≥ 1` new input tokens, the returned present
cache equals the stored per-layer keys and values concatenated along the
sequence dimension with the key and value of the LAST new token only, so
the new cache length is `L + 1` (which equals `L + S` exactly when
`S = 1`). -/
theorem C1_cache_appends_last_token {α : Type}
    (past_key past_value ks vs : List α) (klast vlast : α) :
    Telechat.attentionPresent (some (past_key, past_value))
        (ks ++ [klast]) (vs ++ [vlast]) true =
      some (past_key ++ [klast], past_value ++ [vlast]) ∧
    (past_key ++ [klast]).length = past_key.length + 1 ∧
    (past_value ++ [vlast]).length = past_value.length + 1 := by
  refine ⟨?_, by simp, by simp⟩
  simp [Telechat.attentionPresent]

/-- Helper: optional lookup in a list concatenated with itself reduces
to lookup at the index modulo the length. -/
theorem append_self_getElem? {α : Type} (l : List α) (j : ℕ)
    (hj : j < 2 * l.length) : (l ++ l)[j]? = l[j % l.length]? := by
  by_cases h : j < l.length
  · rw [List.getElem?_append_left h, Nat.mod_eq_of_lt h]
  · have hd : l.length ≤ j := Nat.le_of_not_lt h
    rw [List.getElem?_append_right hd]
    have hmod : j % l.length = j - l.length := by
      have h2 : j - l.length < l.length := by omega
      rw [Nat.mod_eq_sub_mod hd, Nat.mod_eq_of_lt h2]
    rw [hmod]

/-- C2 (counterexample): with `training_seqlen = 4` and requested
sequence length 2, `RotaryEmbedding.forward` returns cosine/sine tables
with first dimension 4, not the requested 2: the requested length is
clamped below by `config.training_seqlen` before the tables are built. -/
theorem C2_table_length_counterexample :
    ((Telechat.RotaryEmbedding.forward (fun _ => (0 : ℚ)) (fun _ => 0)
        (fun _ _ => 1) (fun x => x) (fun x => x) 4 10000 ⟨4, 4⟩ 2).1.length = 4) ∧
    ¬ ((Telechat.RotaryEmbedding.forward (fun _ => (0 : ℚ)) (fun _ => 0)
        (fun _ _ => 1) (fun x => x) (fun x => x) 4 10000 ⟨4, 4⟩ 2).1.length = 2) := by
  constructor
  · rfl
  · intro h
    exact absurd h (by decide)

/-- C2 (amended): `RotaryEmbedding.forward` returns cosine and sine
tables whose first dimension equals the EFFECTIVE sequence length
`max seq_len_arg training_seqlen` (the requested length clamped below by
`config.training_seqlen`), with entry `(t, j)` equal to
`mscale * cos (t * inv_freq (j % ⌈dim/2⌉))` (resp. `sin`), where the
inverse frequencies are `1 / base' ^ (2 i / dim)` with the NTK-adjusted
base `base' = base * ntk_alpha ^ (dim / (dim - 2))` and
`ntk_alpha = get_ntk_alpha` applied to the EFFECTIVE length; moreover
`ntk_alpha = 1` (no adjustment) whenever the effective length is at most
`base_seqlen`, granted that the `log2` kernel is nonpositive on
arguments at most 1. -/
theorem C2_rotary_tables_amended {K : Type} [LinearOrderedField K] [FloorRing K]
    (klog2 klogE : K → K) (kpow : K → K → K) (kcos ksin : K → K)
    (dim : ℕ) (base : K) (config : Telechat.Telechat2Config)
    (seq_len_arg t j : ℕ)
    (ht : t < max seq_len_arg config.training_seqlen)
    (hj : j < 2 * ((dim + 1) / 2)) :
    ((Telechat.RotaryEmbedding.forward klog2 klogE kpow kcos ksin dim base
        config seq_len_arg).1.length = max seq_len_arg config.training_seqlen) ∧
    ((Telechat.RotaryEmbedding.forward klog2 klogE kpow kcos ksin dim base
        config seq_len_arg).2.length = max seq_len_arg config.training_seqlen) ∧
    (((Telechat.RotaryEmbedding.forward klog2 klogE kpow kcos ksin dim base
        config seq_len_arg).1[t]?).bind (fun row => row[j]?) =
      some (Telechat.RotaryEmbedding.get_mscale klogE
          ((max seq_len_arg config.training_seqlen : ℕ) / (config.training_seqlen : K)) *
        kcos ((t : K) *
          (1 / kpow
            (base * kpow
              (Telechat.RotaryEmbedding.get_ntk_alpha klog2 config
                (max seq_len_arg config.training_seqlen))
              ((dim : K) / ((dim : K) - 2)))
            (((2 * (j % ((dim + 1) / 2)) : ℕ) : K) / (dim : K)))))) ∧
    (((Telechat.RotaryEmbedding.forward klog2 klogE kpow kcos ksin dim base
        config seq_len_arg).2[t]?).bind (fun row => row[j]?) =
      some (Telechat.RotaryEmbedding.get_mscale klogE
          ((max seq_len_arg config.training_seqlen : ℕ) / (config.training_seqlen : K)) *
        ksin ((t : K) *
          (1 / kpow
            (base * kpow
              (Telechat.RotaryEmbedding.get_ntk_alpha klog2 config
                (max seq_len_arg config.training_seqlen))
              ((dim : K) / ((dim : K) - 2)))
            (((2 * (j % ((dim + 1) / 2)) : ℕ) : K) / (dim : K)))))) ∧
    (0 < config.base_seqlen →
      max seq_len_arg config.training_seqlen ≤ config.base_seqlen →
      klog2 ((max seq_len_arg config.training_seqlen : ℕ) / (config.base_seqlen : K)) ≤ 0 →
      Telechat.RotaryEmbedding.get_ntk_alpha klog2 config
        (max seq_len_arg config.training_seqlen) = 1) := by
  have hd2 : 0 < (dim + 1) / 2 := by omega
  have hmod : j % ((dim + 1) / 2) < (dim + 1) / 2 := Nat.mod_lt _ hd2
  refine ⟨?_, ?_, ?_, ?_, ?_⟩
  · simp only [Telechat.RotaryEmbedding.forward]
    rw [List.length_take, List.length_map, List.length_map, List.length_range,
      Nat.min_self]
  · simp only [Telechat.RotaryEmbedding.forward]
    rw [List.length_take, List.length_map, List.length_map, List.length_range,
      Nat.min_self]
  · simp only [Telechat.RotaryEmbedding.forward]
    simp only [List.getElem?_take_of_lt ht, List.getElem?_map,
      List.getElem?_range ht, Option.map_some', Option.some_bind, List.map_append]
    rw [append_self_getElem? _ j (by simpa using hj)]
    simp only [List.length_map, List.length_range, List.getElem?_map,
      List.getElem?_range hmod, Option.map_some']
  · simp only [Telechat.RotaryEmbedding.forward]
    simp only [List.getElem?_take_of_lt ht, List.getElem?_map,
      List.getElem?_range ht, Option.map_some', Option.some_bind, List.map_append]
    rw [append_self_getElem? _ j (by simpa using hj)]
    simp only [List.length_map, List.length_range, List.getElem?_map,
      List.getElem?_range hmod, Option.map_some']
  · intro hbase hle hlog
    simp only [Telechat.RotaryEmbedding.get_ntk_alpha]
    have hceil : ⌈klog2 ((max seq_len_arg config.training_seqlen : ℕ) /
        (config.base_seqlen : K)) + 1⌉ ≤ 1 := by
      have h1 : klog2 ((max seq_len_arg config.training_seqlen : ℕ) /
          (config.base_seqlen : K)) + 1 ≤ 1 := by linarith
      calc ⌈klog2 ((max seq_len_arg config.training_seqlen : ℕ) /
            (config.base_seqlen : K)) + 1⌉ ≤ ⌈(1 : K)⌉ := Int.ceil_le_ceil h1
        _ = 1 := Int.ceil_one
    have hpow : (2 : K) ^ ⌈klog2 ((max seq_len_arg config.training_seqlen : ℕ) /
        (config.base_seqlen : K)) + 1⌉ ≤ (2 : K) ^ (1 : ℤ) :=
      zpow_le_zpow_right₀ (by norm_num) hceil
    have h2 : (2 : K) ^ (1 : ℤ) = 2 := zpow_one 2
    apply max_eq_right
    rw [h2] at hpow
    linarith

/-- C2 witness for the amended theorem: concrete instance over `ℚ` with
`dim = 4`, `base = 10000`, `base_seqlen = 8`, `training_seqlen = 4`,
requested length 2, at table entry `(0, 0)`. -/
theorem C2_witness :
    ((0 : ℕ) < max 2 4 ∧ (0 : ℕ) < 2 * ((4 + 1) / 2)) ∧
    (((Telechat.RotaryEmbedding.forward (fun _ => (0 : ℚ)) (fun _ => 0)
        (fun _ _ => 1) (fun x => x) (fun x => x) 4 10000 ⟨8, 4⟩ 2).1.length = max 2 4) ∧
     ((Telechat.RotaryEmbedding.forward (fun _ => (0 : ℚ)) (fun _ => 0)
        (fun _ _ => 1) (fun x => x) (fun x => x) 4 10000 ⟨8, 4⟩ 2).2.length = max 2 4) ∧
     (((Telechat.RotaryEmbedding.forward (fun _ => (0 : ℚ)) (fun _ => 0)
          (fun _ _ => 1) (fun x => x) (fun x => x) 4 10000 ⟨8, 4⟩ 2).1[0]?).bind
        (fun row => row[0]?) =
       some (Telechat.RotaryEmbedding.get_mscale (fun _ => (0 : ℚ))
           ((max 2 4 : ℕ) / ((4 : ℕ) : ℚ)) *
         (fun x : ℚ => x) (((0 : ℕ) : ℚ) *
           (1 / (fun _ _ => (1 : ℚ)) ((10000 : ℚ) * (fun _ _ => (1 : ℚ))
               (Telechat.RotaryEmbedding.get_ntk_alpha (fun _ => (0 : ℚ)) ⟨8, 4⟩
                 (max 2 4))
               (((4 : ℕ) : ℚ) / (((4 : ℕ) : ℚ) - 2)))
             (((2 * (0 % ((4 + 1) / 2)) : ℕ) : ℚ) / ((4 : ℕ) : ℚ)))))) ∧
     (((Telechat.RotaryEmbedding.forward (fun _ => (0 : ℚ)) (fun _ => 0)
          (fun _ _ => 1) (fun x => x) (fun x => x) 4 10000 ⟨8, 4⟩ 2).2[0]?).bind
        (fun row => row[0]?) =
       some (Telechat.RotaryEmbedding.get_mscale (fun _ => (0 : ℚ))
           ((max 2 4 : ℕ) / ((4 : ℕ) : ℚ)) *
         (fun x : ℚ => x) (((0 : ℕ) : ℚ) *
           (1 / (fun _ _ => (1 : ℚ)) ((10000 : ℚ) * (fun _ _ => (1 : ℚ))
               (Telechat.RotaryEmbedding.get_ntk_alpha (fun _ => (0 : ℚ)) ⟨8, 4⟩
                 (max 2 4))
               (((4 : ℕ) : ℚ) / (((4 : ℕ) : ℚ) - 2)))
             (((2 * (0 % ((4 + 1) / 2)) : ℕ) : ℚ) / ((4 : ℕ) : ℚ)))))) ∧
     ((0 : ℕ) < (8 : ℕ) →
      max 2 4 ≤ (8 : ℕ) →
      (fun _ => (0 : ℚ)) ((max 2 4 : ℕ) / ((8 : ℕ) : ℚ)) ≤ 0 →
      Telechat.RotaryEmbedding.get_ntk_alpha (fun _ => (0 : ℚ)) ⟨8, 4⟩ (max 2 4) = 1)) :=
  ⟨⟨by decide, by decide⟩,
   C2_rotary_tables_amended (fun _ => (0 : ℚ)) (fun _ => 0) (fun _ _ => 1)
     (fun x => x) (fun x => x) 4 10000 ⟨8, 4⟩ 2 0 0 (by decide) (by decide)⟩

/-- C3: for input length `S > 1` and past length `P`, the causal mask
entry at query position `i` and key position `j` is `true` (blocked)
exactly when `j > i + P`, the causal mask leaves every `j ≤ i + P`
unblocked, and the combined mask produced by
`TelechatModel._prepare_attn_mask` blocks every `j > i + P`. -/
theorem C3_causal_mask_blocks_future (m : ℕ → Bool) (S P i j : ℕ)
    (hS : 1 < S) :
    (Telechat.makeCausalMask S P i j = true ↔ P + i < j) ∧
    (j ≤ P + i → Telechat.makeCausalMask S P i j = false) ∧
    (P + i < j → Telechat.prepareAttnMask m S P i j = true) := by
  have hiff : Telechat.makeCausalMask S P i j = true ↔ P + i < j := by
    by_cases hj : j < P
    · simp [Telechat.makeCausalMask, hj]
      omega
    · simp [Telechat.makeCausalMask, hj]
      omega
  refine ⟨hiff, ?_, ?_⟩
  · intro hle
    rcases Bool.eq_false_or_eq_true (Telechat.makeCausalMask S P i j) with h | h
    · exact absurd (hiff.mp h) (by omega)
    · exact h
  · intro hlt
    have hc := hiff.mpr hlt
    simp only [Telechat.prepareAttnMask, hS, if_true]
    simp [hc]

/-- C3 witness: concrete instance with `S = 2`, `P = 1`. -/
theorem C3_witness :
    (1 : ℕ) < 2 ∧
    ((Telechat.makeCausalMask 2 1 0 0 = true ↔ 1 + 0 < 0) ∧
     (0 ≤ 1 + 0 → Telechat.makeCausalMask 2 1 0 0 = false) ∧
     (1 + 0 < 0 → Telechat.prepareAttnMask (fun _ => true) 2 1 0 0 = true)) :=
  ⟨by decide, C3_causal_mask_blocks_future (fun _ => true) 2 1 0 0 (by decide)⟩

/-- C4: `MixedFusedRMSNorm.forward` equals the spec formula
`weight * (x / sqrt (mean (x^2) + eps))` — it divides by the
root-mean-square of the features and never subtracts the mean — whenever
the framework `rsqrt` kernel agrees with `1 / sqrt` at the one point
where it is applied. -/
theorem C4_rmsnorm_matches_spec {K : Type} [Field K]
    (krsqrt ksqrt : K → K) (weight : List K) (eps : K) (x : List K)
    (hr : krsqrt ((x.map (fun u => u * u)).sum / (x.length : K) + eps) =
          1 / ksqrt ((x.map (fun u => u * u)).sum / (x.length : K) + eps)) :
    Telechat.MixedFusedRMSNorm.forward krsqrt weight eps x =
      Telechat.rmsnormSpecFormula ksqrt weight eps x := by
  simp only [Telechat.MixedFusedRMSNorm.forward, Telechat.rmsnormSpecFormula]
  rw [List.zipWith_map_right]
  have hfun :
      (fun (w v : K) =>
        w * (v * krsqrt ((x.map (fun u => u * u)).sum / (x.length : K) + eps))) =
      (fun (w v : K) =>
        w * (v / ksqrt ((x.map (fun u => u * u)).sum / (x.length : K) + eps))) := by
    funext w v
    rw [hr, mul_one_div]
  rw [hfun]

/-- C4 witness: concrete instance over `ℚ` with `x = [2]`, `weight = [3]`,
`eps = 0`, `rsqrt = fun v => 1 / v` and `sqrt = id`. -/
theorem C4_witness :
    ((fun v : ℚ => 1 / v) ((([2] : List ℚ).map (fun u => u * u)).sum / (([2] : List ℚ).length : ℚ) + 0) =
      1 / (fun v : ℚ => v) ((([2] : List ℚ).map (fun u => u * u)).sum / (([2] : List ℚ).length : ℚ) + 0)) ∧
    Telechat.MixedFusedRMSNorm.forward (fun v : ℚ => 1 / v) [3] 0 [2] =
      Telechat.rmsnormSpecFormula (fun v : ℚ => v) [3] 0 [2] :=
  ⟨by norm_num,
   C4_rmsnorm_matches_spec (fun v : ℚ => 1 / v) (fun v : ℚ => v) [3] 0 [2] (by norm_num)⟩

/-- Helper: an optional lookup into a `zipWith` from lookups into the
zipped lists. -/
theorem zipWith_getElem?_some {α β γ : Type} (f : α → β → γ)
    {as : List α} {bs : List β} {t : ℕ} {a : α} {b : β}
    (h1 : as[t]? = some a) (h2 : bs[t]? = some b) :
    (List.zipWith f as bs)[t]? = some (f a b) :=
  List.getElem?_zipWith_eq_some.mpr ⟨a, b, h1, h2, rfl⟩

/-- C5: `rotate_half` splits the feature axis into halves `(x1, x2)` and
returns `(-x2, x1)`, and `apply_rotary_pos_emb_torch` sends sequence
position `t` of both query and key to
`x * cos + rotate_half x * sin` computed with table row `offset + t`,
i.e. it uses the table rows `offset ..< offset + len q`. -/
theorem C5_rotary_position_encoding {K : Type} [Field K]
    (q k : List (List (List K))) (cos sin : List (List K)) (offset t : ℕ)
    (crow srow : List K) (x1 x2 : List K)
    (hlen : x1.length = x2.length)
    (hq : t < q.length) (hk : t < k.length)
    (hc : cos[offset + t]? = some crow) (hs : sin[offset + t]? = some srow) :
    (Telechat.rotate_half (x1 ++ x2) = x2.map (fun v => -v) ++ x1) ∧
    ((Telechat.apply_rotary_pos_emb_torch q k cos sin offset).1[t]? =
      (q[t]?).map (fun xt => xt.map (fun vec =>
        List.zipWith (fun a b => a + b)
          (List.zipWith (fun a b => a * b) vec crow)
          (List.zipWith (fun a b => a * b) (Telechat.rotate_half vec) srow)))) ∧
    ((Telechat.apply_rotary_pos_emb_torch q k cos sin offset).2[t]? =
      (k[t]?).map (fun xt => xt.map (fun vec =>
        List.zipWith (fun a b => a + b)
          (List.zipWith (fun a b => a * b) vec crow)
          (List.zipWith (fun a b => a * b) (Telechat.rotate_half vec) srow)))) := by
  have hhalf : (x1 ++ x2).length / 2 = x1.length := by
    simp only [List.length_append, ← hlen]
    omega
  have hcz :
      (((cos.drop offset).take q.length).zip ((sin.drop offset).take q.length))[t]? =
        some (crow, srow) := by
    apply List.getElem?_zip_eq_some.mpr
    constructor
    · rw [List.getElem?_take_of_lt hq, List.getElem?_drop]
      exact hc
    · rw [List.getElem?_take_of_lt hq, List.getElem?_drop]
      exact hs
  refine ⟨?_, ?_, ?_⟩
  · simp only [Telechat.rotate_half, hhalf, List.take_left, List.drop_left]
  · obtain ⟨xt, hxt⟩ : ∃ xt, q[t]? = some xt := ⟨q[t], List.getElem?_eq_getElem hq⟩
    simp only [Telechat.apply_rotary_pos_emb_torch]
    rw [zipWith_getElem?_some _ hcz hxt, hxt]
    rfl
  · obtain ⟨xt, hxt⟩ : ∃ xt, k[t]? = some xt := ⟨k[t], List.getElem?_eq_getElem hk⟩
    simp only [Telechat.apply_rotary_pos_emb_torch]
    rw [zipWith_getElem?_some _ hcz hxt, hxt]
    rfl

/-- C5 witness: a one-position query/key of head dimension 2 over `ℚ`,
with table rows `[1, 1]` (cos) and `[0, 0]` (sin) at offset 0. -/
theorem C5_witness :
    (([5] : List ℚ).length = ([6] : List ℚ).length ∧
     0 < ([[[1, 2]]] : List (List (List ℚ))).length ∧
     0 < ([[[3, 4]]] : List (List (List ℚ))).length ∧
     ([[1, 1]] : List (List ℚ))[0 + 0]? = some [1, 1] ∧
     ([[0, 0]] : List (List ℚ))[0 + 0]? = some [0, 0]) ∧
    ((Telechat.rotate_half (([5] : List ℚ) ++ [6]) =
        ([6] : List ℚ).map (fun v => -v) ++ [5]) ∧
     ((Telechat.apply_rotary_pos_emb_torch ([[[1, 2]]] : List (List (List ℚ)))
          [[[3, 4]]] [[1, 1]] [[0, 0]] 0).1[0]? =
        (([[[1, 2]]] : List (List (List ℚ)))[0]?).map (fun xt => xt.map (fun vec =>
          List.zipWith (fun a b => a + b)
            (List.zipWith (fun a b => a * b) vec [1, 1])
            (List.zipWith (fun a b => a * b) (Telechat.rotate_half vec) [0, 0])))) ∧
     ((Telechat.apply_rotary_pos_emb_torch ([[[1, 2]]] : List (List (List ℚ)))
          [[[3, 4]]] [[1, 1]] [[0, 0]] 0).2[0]? =
        (([[[3, 4]]] : List (List (List ℚ)))[0]?).map (fun xt => xt.map (fun vec =>
          List.zipWith (fun a b => a + b)
            (List.zipWith (fun a b => a * b) vec [1, 1])
            (List.zipWith (fun a b => a * b) (Telechat.rotate_half vec) [0, 0]))))) :=
  ⟨⟨rfl, by decide, by decide, rfl, rfl⟩,
   C5_rotary_position_encoding [[[1, 2]]] [[[3, 4]]] [[1, 1]] [[0, 0]] 0 0
     [1, 1] [0, 0] [5] [6] rfl (by decide) (by decide) rfl rfl⟩

/-- C6: `Telechat2ForCausalLM.forward` computes the logits as the
`lm_head` linear projection of every final hidden state; the loss is
`none` exactly when `labels` is `none`, and with labels present it is the
cross-entropy of the logits at positions `0 ..= S-2` of each sequence
against the labels at positions `1 ..= S-1` (one-token shift), flattened
over the batch. -/
theorem C6_causal_lm_head {K : Type} [Field K]
    (kce : List (List K) → List ℤ → K) (lm_head_w : List (List K))
    (hidden_states : List (List (List K))) (ls : List (List ℤ))
    (bi si : ℕ) (seqL : List (List K)) (vec : List K)
    (hb : hidden_states[bi]? = some seqL) (hs : seqL[si]? = some vec) :
    (((Telechat.Telechat2ForCausalLM.forward kce lm_head_w hidden_states none).1[bi]?).bind
        (fun s => s[si]?) = some (Telechat.linear lm_head_w vec)) ∧
    (Telechat.Telechat2ForCausalLM.forward kce lm_head_w hidden_states none).2 = none ∧
    (Telechat.Telechat2ForCausalLM.forward kce lm_head_w hidden_states (some ls)).2 =
      some (kce
        ((hidden_states.map
            (fun s => (s.map (Telechat.linear lm_head_w)).take (s.length - 1))).flatten)
        ((ls.map (fun s => s.drop 1)).flatten)) := by
  refine ⟨?_, rfl, ?_⟩
  · simp [Telechat.Telechat2ForCausalLM.forward, hb, hs]
  · simp only [Telechat.Telechat2ForCausalLM.forward, Option.map_some]
    have hfe :
        (fun s : List (List K) => (s.map (Telechat.linear lm_head_w)).dropLast) =
        (fun s : List (List K) => (s.map (Telechat.linear lm_head_w)).take (s.length - 1)) := by
      funext s
      rw [List.dropLast_eq_take, List.length_map]
    simp only [List.map_map, Function.comp_def, hfe]
    rfl

/-- C6 witness: a single batch entry with two positions over `ℚ`. -/
theorem C6_witness :
    (([[[2], [3]]] : List (List (List ℚ)))[0]? = some [[2], [3]] ∧
     ([[2], [3]] : List (List ℚ))[0]? = some [2]) ∧
    ((((Telechat.Telechat2ForCausalLM.forward (fun _ _ => (0 : ℚ)) [[1]]
          [[[2], [3]]] none).1[0]?).bind (fun s => s[0]?) =
        some (Telechat.linear [[1]] [2])) ∧
     (Telechat.Telechat2ForCausalLM.forward (fun _ _ => (0 : ℚ)) [[1]]
        [[[2], [3]]] none).2 = none ∧
     (Telechat.Telechat2ForCausalLM.forward (fun _ _ => (0 : ℚ)) [[1]]
        [[[2], [3]]] (some [[7, 8]])).2 =
      some ((fun _ _ => (0 : ℚ))
        ((([[[2], [3]]] : List (List (List ℚ))).map
            (fun s => (s.map (Telechat.linear [[1]])).take (s.length - 1))).flatten)
        ((([[7, 8]] : List (List ℤ)).map (fun s => s.drop 1)).flatten))) :=
  ⟨⟨rfl, rfl⟩,
   C6_causal_lm_head (fun _ _ => (0 : ℚ)) [[1]] [[[2], [3]]] [[7, 8]] 0 0
     [[2], [3]] [2] rfl rfl⟩

/-- C7: `build_inputs_with_special_tokens` wraps `token_ids_0` with the
BOS id exactly when `add_bos_token` is set and the EOS id exactly when
`add_eos_token` is set, appends the same wrapping of `token_ids_1` when
it is given, and with the constructor defaults
(`add_bos_token = True`, `add_eos_token = False`) a single sequence
becomes `[bos_token_id] ++ token_ids_0`. -/
theorem C7_build_inputs_special_tokens (add_bos add_eos : Bool)
    (bos eos : ℤ) (ids0 : List ℤ) (ids1 : Option (List ℤ)) :
    (Telechat.build_inputs_with_special_tokens add_bos add_eos bos eos ids0 ids1 =
      (if add_bos then [bos] else []) ++ ids0 ++ (if add_eos then [eos] else []) ++
        (match ids1 with
         | none => []
         | some l1 =>
             (if add_bos then [bos] else []) ++ l1 ++ (if add_eos then [eos] else []))) ∧
    Telechat.build_inputs_with_special_tokens true false bos eos ids0 none =
      bos :: ids0 := by
  constructor
  · cases ids1 <;> simp [Telechat.build_inputs_with_special_tokens]
  · simp [Telechat.build_inputs_with_special_tokens]

/-- C8: `TelechatMLP.forward` returns the residual plus the dropout of
the gated feed-forward `down_proj (silu (gate_proj x) * up_proj x)`, and
in evaluation mode (`training = false`, dropout disabled) it returns
exactly `residual + down_proj (silu (gate_proj x) * up_proj x)`. -/
theorem C8_mlp_forward {K : Type} [Field K] (ksilu : K → K)
    (kdrop : List K → List K) (gate_proj_w up_proj_w down_proj_w : List (List K))
    (down_proj_b : List K) (hidden_dropout : K) (training : Bool)
    (x residual : List K) :
    (Telechat.TelechatMLP.forward ksilu kdrop gate_proj_w up_proj_w down_proj_w
        down_proj_b hidden_dropout training x residual =
      List.zipWith (fun r o => r + o) residual
        (if training then
          kdrop (Telechat.linearWithBias down_proj_w down_proj_b
            (List.zipWith (fun a b => a * b)
              ((Telechat.linear gate_proj_w x).map ksilu)
              (Telechat.linear up_proj_w x)))
        else
          Telechat.linearWithBias down_proj_w down_proj_b
            (List.zipWith (fun a b => a * b)
              ((Telechat.linear gate_proj_w x).map ksilu)
              (Telechat.linear up_proj_w x)))) ∧
    Telechat.TelechatMLP.forward ksilu kdrop gate_proj_w up_proj_w down_proj_w
        down_proj_b hidden_dropout false x residual =
      Telechat.mlpGatedSpec ksilu gate_proj_w up_proj_w down_proj_w down_proj_b
        x residual := by
  constructor
  · simp [Telechat.TelechatMLP.forward, Telechat.dropout_add]
  · simp [Telechat.TelechatMLP.forward, Telechat.dropout_add, Telechat.mlpGatedSpec]

/-- Helper: reading back a just-written file yields its content. -/
theorem read_write_self (fs : Telechat.FileSys) (p : String) (c : Telechat.SPModel) :
    (fs.write p c).read p = some c := by
  unfold Telechat.FileSys.write Telechat.FileSys.read
  rw [List.find?_cons_of_pos _ (by simp)]
  rfl

/-- Helper: an existing file can be read. -/
theorem isfile_read {fs : Telechat.FileSys} {p : String}
    (h : fs.isfile p = true) : ∃ c, fs.read p = some c := by
  unfold Telechat.FileSys.isfile at h
  unfold Telechat.FileSys.read
  obtain ⟨e, he, hp⟩ := List.any_eq_true.mp h
  have hsome : (fs.files.find? (fun e => e.1 = p)).isSome :=
    List.find?_isSome.mpr ⟨e, he, hp⟩
  obtain ⟨x, hx⟩ := Option.isSome_iff_exists.mp hsome
  exact ⟨x.2, by rw [hx]; rfl⟩

/-- C9: saving the vocabulary into an existing directory and then
constructing a new `Telechat2Tokenizer` from the saved file yields a
tokenizer with the same SentencePiece model as the original, hence equal
`vocab_size` and an identical token-to-id mapping.  The coherence
hypothesis says the tokenizer's in-memory model matches its `vocab_file`
on disk (as the constructor guarantees) or the file is gone. -/
theorem C9_save_load_round_trip (tok : Telechat.Telechat2Tokenizer)
    (fs : Telechat.FileSys) (save_directory : String) (fnPre : Option String)
    (hdir : fs.isdir save_directory = true)
    (hcoh : fs.read tok.vocab_file = some tok.sp_model ∨
            fs.read tok.vocab_file = none) :
    ∃ out : String,
      (tok.save_vocabulary fs save_directory fnPre).1 = some out ∧
      Telechat.Telechat2Tokenizer.fromFile
          (tok.save_vocabulary fs save_directory fnPre).2 out =
        some ⟨tok.sp_model, out⟩ ∧
      (Telechat.Telechat2Tokenizer.mk tok.sp_model out).sp_model.get_vocab =
        tok.sp_model.get_vocab ∧
      (Telechat.Telechat2Tokenizer.mk tok.sp_model out).sp_model.vocab_size =
        tok.sp_model.vocab_size := by
  obtain ⟨out, hout⟩ : ∃ s, save_directory ++ "/" ++
      ((match fnPre with | some p => p ++ "-" | none => "") ++ "tokenizer.model") = s :=
    ⟨_, rfl⟩
  refine ⟨out, ?_⟩
  simp only [Telechat.Telechat2Tokenizer.save_vocabulary]
  rw [if_neg (by simp [hdir]), hout]
  split_ifs with h1 h2
  · have hread : fs.read tok.vocab_file = some tok.sp_model := by
      rcases hcoh with h | h
      · exact h
      · obtain ⟨c, hc⟩ := isfile_read h1.2
        rw [h] at hc
        exact absurd hc (by simp)
    refine ⟨rfl, ?_, by trivial, by trivial⟩
    simp [Telechat.FileSys.copyfile, hread, Telechat.Telechat2Tokenizer.fromFile,
      read_write_self]
  · refine ⟨rfl, ?_, by trivial, by trivial⟩
    simp [Telechat.Telechat2Tokenizer.fromFile, read_write_self]
  · have hfile : fs.isfile tok.vocab_file = true := by
      cases hfb : fs.isfile tok.vocab_file
      · exact absurd hfb h2
      · rfl
    have heq : tok.vocab_file = out := by
      by_contra hne
      exact h1 ⟨hne, hfile⟩
    have hread : fs.read tok.vocab_file = some tok.sp_model := by
      rcases hcoh with h | h
      · exact h
      · obtain ⟨c, hc⟩ := isfile_read hfile
        rw [h] at hc
        exact absurd hc (by simp)
    refine ⟨rfl, ?_, by trivial, by trivial⟩
    simp only [Telechat.Telechat2Tokenizer.fromFile]
    rw [← heq, hread]
    rfl

/-- C9 witness: a filesystem holding directory `d` and vocab file `v`,
with the tokenizer loaded from `v`. -/
theorem C9_witness :
    ((Telechat.FileSys.mk ["d"] [("v", ⟨["a", "b"]⟩)]).isdir "d" = true ∧
     ((Telechat.FileSys.mk ["d"] [("v", ⟨["a", "b"]⟩)]).read "v" =
        some (Telechat.Telechat2Tokenizer.mk ⟨["a", "b"]⟩ "v").sp_model ∨
      (Telechat.FileSys.mk ["d"] [("v", ⟨["a", "b"]⟩)]).read "v" = none)) ∧
    (∃ out : String,
      ((Telechat.Telechat2Tokenizer.mk ⟨["a", "b"]⟩ "v").save_vocabulary
          ⟨["d"], [("v", ⟨["a", "b"]⟩)]⟩ "d" none).1 = some out ∧
      Telechat.Telechat2Tokenizer.fromFile
          ((Telechat.Telechat2Tokenizer.mk ⟨["a", "b"]⟩ "v").save_vocabulary
            ⟨["d"], [("v", ⟨["a", "b"]⟩)]⟩ "d" none).2 out =
        some ⟨(Telechat.Telechat2Tokenizer.mk ⟨["a", "b"]⟩ "v").sp_model, out⟩ ∧
      (Telechat.Telechat2Tokenizer.mk
          (Telechat.Telechat2Tokenizer.mk ⟨["a", "b"]⟩ "v").sp_model
          out).sp_model.get_vocab =
        (Telechat.Telechat2Tokenizer.mk ⟨["a", "b"]⟩ "v").sp_model.get_vocab ∧
      (Telechat.Telechat2Tokenizer.mk
          (Telechat.Telechat2Tokenizer.mk ⟨["a", "b"]⟩ "v").sp_model
          out).sp_model.vocab_size =
        (Telechat.Telechat2Tokenizer.mk ⟨["a", "b"]⟩ "v").sp_model.vocab_size) :=
  ⟨⟨by decide, Or.inl (by decide)⟩,
   C9_save_load_round_trip (Telechat.Telechat2Tokenizer.mk ⟨["a", "b"]⟩ "v")
     ⟨["d"], [("v", ⟨["a", "b"]⟩)]⟩ "d" none (by decide) (Or.inl (by decide))⟩

/-- C10: calling `save_vocabulary` with a `save_directory` that is not an
existing directory returns `None` (not the documented tuple of paths) and
leaves the filesystem — hence the saved state and the tokenizer — fully
unchanged. -/
theorem C10_save_vocabulary_not_a_directory (tok : Telechat.Telechat2Tokenizer)
    (fs : Telechat.FileSys) (save_directory : String) (fnPre : Option String)
    (h : fs.isdir save_directory = false) :
    tok.save_vocabulary fs save_directory fnPre = (none, fs) := by
  simp [Telechat.Telechat2Tokenizer.save_vocabulary, h]

/-- C10 witness: saving into the missing directory `d` on an empty
filesystem. -/
theorem C10_witness :
    (Telechat.FileSys.mk [] []).isdir "d" = false ∧
    Telechat.Telechat2Tokenizer.save_vocabulary ⟨⟨["a"]⟩, "v"⟩ ⟨[], []⟩ "d" none =
      (none, ⟨[], []⟩) :=
  ⟨by decide, C10_save_vocabulary_not_a_directory ⟨⟨["a"]⟩, "v"⟩ ⟨[], []⟩ "d" none (by decide)⟩
